import Mathlib

/-!
Verification of the `mongo-to-sql` translator (`src/lib.rs`).

The translator `match_stage` takes a JSON document describing a MongoDB-style
filter and produces a SQL boolean predicate string, or a `ToSqlError`.
This file embeds the JSON value type, the value renderer (serde_json's
compact `Display`), the error type, and the recursive translator, and proves
the specification claims about them.
-/

/-- JSON values as manipulated by the translator.  Numbers are modelled as
integers (the claims under study never depend on float formatting); objects
are ordered association lists, matching the insertion-order iteration of the
source's map type (the repository's regex test only passes under
insertion-order iteration). -/
inductive Json where
  | null : Json
  | bool (b : Bool) : Json
  | num (n : Int) : Json
  | str (s : String) : Json
  | arr (xs : List Json) : Json
  | obj (kvs : List (String × Json)) : Json

def Json.isObj : Json → Bool
  | .obj _ => true
  | _ => false

def Json.isArr : Json → Bool
  | .arr _ => true
  | _ => false

def Json.isStr : Json → Bool
  | .str _ => true
  | _ => false

/-- Lower-case hexadecimal digit. -/
def hexDigitChar (n : Nat) : Char :=
  if n < 10 then Char.ofNat (48 + n) else Char.ofNat (87 + n)

/-- serde_json's escaping of a character inside a JSON string literal:
quote and backslash get a backslash escape, the short control escapes
b, t, n, f, r are used where they exist, any other control character
becomes a `\u00xx` escape, and everything else is emitted verbatim. -/
def escapeChar (c : Char) : String :=
  if c = '"' then "\\\""
  else if c = '\\' then "\\\\"
  else if c = Char.ofNat 8 then "\\b"
  else if c = '\t' then "\\t"
  else if c = '\n' then "\\n"
  else if c = Char.ofNat 12 then "\\f"
  else if c = '\r' then "\\r"
  else if c.toNat < 32 then
    "\\u00" ++ String.singleton (hexDigitChar (c.toNat / 16))
      ++ String.singleton (hexDigitChar (c.toNat % 16))
  else String.singleton c

/-- A JSON string literal: double quotes around the escaped characters. -/
def renderString (s : String) : String :=
  "\"" ++ String.join (s.data.map escapeChar) ++ "\""

mutual
/-- Compact JSON serialization of a value — the embedding of
`format!("\x7b\x7d", value)` on a `serde_json::Value` (its `Display`). -/
def render : Json → String
  | .null => "null"
  | .bool true => "true"
  | .bool false => "false"
  | .num n => toString n
  | .str s => renderString s
  | .arr xs => "[" ++ renderList xs ++ "]"
  | .obj kvs => "\x7b" ++ renderObj kvs ++ "\x7d"

def renderList : List Json → String
  | [] => ""
  | [x] => render x
  | x :: y :: xs => render x ++ "," ++ renderList (y :: xs)

def renderObj : List (String × Json) → String
  | [] => ""
  | [(k, v)] => renderString k ++ ":" ++ render v
  | (k, v) :: e :: kvs => renderString k ++ ":" ++ render v ++ "," ++ renderObj (e :: kvs)
end

/-- The error type of the translator (`ToSqlError` in `src/lib.rs`). -/
inductive ToSqlError where
  | InvalidOperandValue (key : String)
  | InvalidRegexValue (v : Json)
  | UnsupportedOperator (op : String)
  | MissingOperator (key : String)
  | InvalidStage (v : Json)

/-- The three logical-grouping keys (`op_keys` in `match_stage`). -/
def groupingKeys : List String := ["$and", "$or", "$nor"]

/-- A single-quote character, used by the `$regex` rendering. -/
def squote : String := String.singleton (Char.ofNat 39)

/-- Operand of a membership operator: an array contributes its elements
individually rendered, anything else is a one-element list. -/
def membVals : Json → List String
  | .arr a => a.map render
  | v => [render v]

/-- The operator dispatch of `match_stage`: given the field key, the first
key of the operator mapping and its operand, produce the text appended to
the accumulating SQL string (or an error).  `$options` appends nothing. -/
def fieldOp (key opKey : String) (opValue : Json) : Except ToSqlError String :=
  if opKey = "$gte" then .ok (key ++ " >= " ++ render opValue)
  else if opKey = "$gt" then .ok (key ++ " > " ++ render opValue)
  else if opKey = "$lte" then .ok (key ++ " <= " ++ render opValue)
  else if opKey = "$lt" then .ok (key ++ " < " ++ render opValue)
  else if opKey = "$eq" then .ok (key ++ " = " ++ render opValue)
  else if opKey = "$ne" then .ok (key ++ " != " ++ render opValue)
  else if opKey = "$in" then
    .ok (key ++ " IN (" ++ String.intercalate ", " (membVals opValue) ++ ")")
  else if opKey = "$nin" then
    .ok (key ++ " NOT IN (" ++ String.intercalate ", " (membVals opValue) ++ ")")
  else if opKey = "$regex" then
    match opValue with
    | .str s => .ok (key ++ " ~ " ++ squote ++ s ++ squote)
    | v => .error (.InvalidRegexValue v)
  else if opKey = "$options" then .ok ""
  else .error (.UnsupportedOperator opKey)

/-- The single left-to-right pass of `match_stage` over the entries of a
stage object, accumulating the SQL text of the field conditions.  A
grouping key must carry an array (else `InvalidOperandValue`) and emits no
text here; a field key with an object value consults only the first entry
of that object (empty object: `MissingOperator`); any other value is an
implicit equality. -/
def processEntries : List (String × Json) → String → Except ToSqlError String
  | [], sql => .ok sql
  | (key, value) :: rest, sql =>
    if groupingKeys.contains key then
      match value with
      | .arr _ => processEntries rest sql
      | _ => .error (.InvalidOperandValue key)
    else
      match value with
      | .obj [] => .error (.MissingOperator key)
      | .obj ((opKey, opValue) :: _) =>
        match fieldOp key opKey opValue with
        | .ok piece => processEntries rest (sql ++ piece)
        | .error e => .error e
      | _ => processEntries rest (sql ++ key ++ " = " ++ render value)

/-- The boolean connective used to join sub-stage results: `" AND "` exactly
when the stage object contains the key `"$and"` (the source checks
`stage_obj.contains_key("$and")`), otherwise `" OR "`. -/
def connective (kvs : List (String × Json)) : String :=
  if (kvs.map Prod.fst).contains "$and" then " AND " else " OR "

mutual
/-- The embedding of `match_stage` from `src/lib.rs`.  A non-object stage is
`InvalidStage`.  Otherwise the entries are processed in order
(`processEntries`), then — if a grouping key was present — the sub-stages of
the last grouping key's array are translated, each result wrapped in
parentheses, joined by the connective and wrapped once more, and appended
after the field-condition text.  An empty surviving array appends
nothing. -/
def match_stage : Json → Except ToSqlError String
  | .obj kvs =>
    match processEntries kvs "" with
    | .error e => .error e
    | .ok sql =>
      match groupResult kvs with
      | none => .ok sql
      | some (.error e) => .error e
      | some (.ok []) => .ok sql
      | some (.ok (t :: ts)) =>
        .ok (sql ++ "(" ++
          String.intercalate (connective kvs) ((t :: ts).map (fun s => "(" ++ s ++ ")"))
          ++ ")")
  | v => .error (.InvalidStage v)

/-- The translations of the sub-stages of the last grouping key of the
stage, if any: the source overwrites `op_values` at each grouping key, so
only the final grouping key's array is ever recursed into. -/
def groupResult : List (String × Json) → Option (Except ToSqlError (List String))
  | [] => none
  | (key, value) :: rest =>
    match groupResult rest with
    | some r => some r
    | none =>
      if groupingKeys.contains key then
        match value with
        | .arr a => some (matchSubs a)
        | _ => none
      else none

/-- Translate a list of sub-stages in order, stopping at the first error
(the embedding of `collect::<Result<Vec<_>, _>>()`). -/
def matchSubs : List Json → Except ToSqlError (List String)
  | [] => .ok []
  | v :: rest =>
    match match_stage v with
    | .error e => .error e
    | .ok s =>
      match matchSubs rest with
      | .error e => .error e
      | .ok ss => .ok (s :: ss)
end

/-! ### Well-formedness (the spec's shape invariants) -/

def recognizedOps : List String :=
  ["$gte", "$gt", "$lte", "$lt", "$eq", "$ne", "$in", "$nin", "$options"]

def wfOp (opKey : String) (opValue : Json) : Bool :=
  recognizedOps.contains opKey || (opKey == "$regex" && opValue.isStr)

mutual
def wfStage : Json → Bool
  | .obj kvs => wfEntries kvs
  | _ => false

def wfEntries : List (String × Json) → Bool
  | [] => true
  | (key, value) :: rest =>
    (if groupingKeys.contains key then
      match value with
      | Json.arr a => wfStages a
      | _ => false
    else
      match value with
      | Json.obj [] => false
      | Json.obj ((opKey, opValue) :: _) => wfOp opKey opValue
      | _ => true) && wfEntries rest

def wfStages : List Json → Bool
  | [] => true
  | v :: rest => wfStage v && wfStages rest
end

example : match_stage (.obj [("age", .obj [("$gte", .num 21)])]) = .ok "age >= 21" := rfl
example : match_stage (.obj [("age", .obj [("$gt", .num 21)])]) = .ok "age > 21" := rfl
example : match_stage (.obj [("age", .obj [("$lte", .num 21)])]) = .ok "age <= 21" := rfl
example : match_stage (.obj [("age", .obj [("$lt", .num 21)])]) = .ok "age < 21" := rfl
example : match_stage (.obj [("name", .obj [("$eq", .str "John")])]) = .ok "name = \"John\"" := rfl
example : match_stage (.obj [("name", .obj [("$ne", .str "John")])]) = .ok "name != \"John\"" := rfl
example : match_stage (.obj [("status", .obj [("$in", .arr [.str "active", .str "pending"])])])
    = .ok "status IN (\"active\", \"pending\")" := rfl
example : match_stage (.obj [("status", .obj [("$nin", .arr [.str "active", .str "pending"])])])
    = .ok "status NOT IN (\"active\", \"pending\")" := rfl
example : match_stage (.obj [("$and", .arr [.obj [("status", .str "active")],
      .obj [("age", .obj [("$gte", .num 21)])]])])
    = .ok "((status = \"active\") AND (age >= 21))" := rfl
example : match_stage (.obj [("$or", .arr [.obj [("status", .str "active")],
      .obj [("age", .obj [("$gte", .num 21)])]])])
    = .ok "((status = \"active\") OR (age >= 21))" := rfl
example : match_stage (.obj [("name", .obj [("$regex", .str "^joh?n$"), ("$options", .str "i")])])
    = .ok ("name ~ " ++ squote ++ "^joh?n$" ++ squote) := rfl
example : match_stage (.obj [("name", .obj [("$foo", .str "bar")])])
    = .error (.UnsupportedOperator "$foo") := rfl
example : match_stage (.num 42) = .error (.InvalidStage (.num 42)) := rfl

/-! ### Helper lemmas -/

lemma groupResult_cons (k : String) (v : Json) (rest : List (String × Json)) :
    groupResult ((k, v) :: rest) =
      match groupResult rest with
      | some r => some r
      | none =>
        if groupingKeys.contains k then
          match v with
          | .arr a => some (matchSubs a)
          | _ => none
        else none := by
  cases v <;> simp [groupResult]

lemma processEntries_cons (key : String) (value : Json) (rest : List (String × Json)) (sql : String) :
    processEntries ((key, value) :: rest) sql =
      (if groupingKeys.contains key then
        match value with
        | .arr _ => processEntries rest sql
        | _ => .error (.InvalidOperandValue key)
      else
        match value with
        | .obj [] => .error (.MissingOperator key)
        | .obj ((opKey, opValue) :: _) =>
          match fieldOp key opKey opValue with
          | .ok piece => processEntries rest (sql ++ piece)
          | .error e => .error e
        | _ => processEntries rest (sql ++ key ++ " = " ++ render value)) := by
  cases value with
  | obj kvs =>
    cases kvs with
    | nil => simp [processEntries]
    | cons e tail =>
      obtain ⟨opKey, opValue⟩ := e
      simp [processEntries]
  | _ => simp [processEntries]

lemma match_stage_obj (kvs : List (String × Json)) :
    match_stage (.obj kvs) =
      (match processEntries kvs "" with
      | .error e => .error e
      | .ok sql =>
        match groupResult kvs with
        | none => .ok sql
        | some (.error e) => .error e
        | some (.ok []) => .ok sql
        | some (.ok (t :: ts)) =>
          .ok (sql ++ "(" ++
            String.intercalate (connective kvs) ((t :: ts).map (fun s => "(" ++ s ++ ")"))
            ++ ")")) := by rw [match_stage]

lemma matchSubs_cons (v : Json) (rest : List Json) :
    matchSubs (v :: rest) =
      (match match_stage v with
      | .error e => .error e
      | .ok s =>
        match matchSubs rest with
        | .error e => .error e
        | .ok ss => .ok (s :: ss)) := by rw [matchSubs]

lemma groupResult_last (pre : List (String × Json)) (g : String) (subs : List Json)
    (hg : g ∈ groupingKeys) :
    groupResult (pre ++ [(g, .arr subs)]) = some (matchSubs subs) := by
  induction pre with
  | nil => simp [groupResult_cons, groupResult, hg]
  | cons e pre ih =>
    rw [List.cons_append, groupResult_cons e.1 e.2, ih]

lemma match_stage_not_obj (v : Json) (hv : v.isObj = false) :
    match_stage v = .error (.InvalidStage v) := by
  rw [match_stage.eq_def]
  cases v <;> simp_all [Json.isObj]

lemma match_stage_single_field (f opKey : String) (opValue : Json)
    (rest : List (String × Json)) (hf : f ∉ groupingKeys) :
    match_stage (.obj [(f, .obj ((opKey, opValue) :: rest))]) = fieldOp f opKey opValue := by
  rw [match_stage_obj, processEntries_cons, groupResult_cons]
  cases hfo : fieldOp f opKey opValue <;>
    simp [hf, hfo, groupResult, processEntries]

lemma match_stage_implicit_eq (f : String) (v : Json)
    (hf : f ∉ groupingKeys) (hv : v.isObj = false) :
    match_stage (.obj [(f, v)]) = .ok (f ++ " = " ++ render v) := by
  rw [match_stage_obj, processEntries_cons, groupResult_cons]
  cases v <;> simp_all [hf, groupResult, processEntries, Json.isObj]

lemma matchSubs_of_map (subs : List Json) (ts : List String)
    (h : subs.map match_stage = ts.map Except.ok) : matchSubs subs = .ok ts := by
  induction subs generalizing ts with
  | nil => cases ts <;> simp_all [matchSubs]
  | cons v rest ih =>
    cases ts with
    | nil => simp at h
    | cons t ts' =>
      simp only [List.map_cons, List.cons.injEq] at h
      obtain ⟨h1, h2⟩ := h
      rw [matchSubs_cons, h1, ih ts' h2]

lemma matchSubs_append_error (pre : List Json) (bad : Json) (post : List Json)
    (e : ToSqlError) (hpre : ∀ v ∈ pre, ∃ s, match_stage v = Except.ok s)
    (hbad : match_stage bad = .error e) :
    matchSubs (pre ++ bad :: post) = .error e := by
  induction pre with
  | nil => rw [List.nil_append, matchSubs_cons, hbad]
  | cons v rest ih =>
    obtain ⟨s, hs⟩ := hpre v (by simp)
    rw [List.cons_append, matchSubs_cons, hs, ih (fun w hw => hpre w (by simp [hw]))]

lemma connective_single (g : String) (v : Json) :
    connective [(g, v)] = if g = "$and" then " AND " else " OR " := by
  by_cases hand : g = "$and"
  · simp [connective, hand]
  · simp [connective, hand, Ne.symm hand]

lemma match_stage_single_group (g : String) (subs : List Json) (t : String) (ts : List String)
    (hg : g ∈ groupingKeys)
    (h : matchSubs subs = .ok (t :: ts)) :
    match_stage (.obj [(g, .arr subs)]) =
      .ok ("(" ++ String.intercalate (if g = "$and" then " AND " else " OR ")
        ((t :: ts).map (fun s => "(" ++ s ++ ")")) ++ ")") := by
  have hgr := groupResult_last [] g subs hg
  simp only [List.nil_append] at hgr
  rw [match_stage_obj, processEntries_cons]
  simp [hg, hgr, h, connective_single, processEntries]

lemma wfEntries_cons (k : String) (v : Json) (rest : List (String × Json)) :
    wfEntries ((k, v) :: rest) =
      ((if groupingKeys.contains k then
        match v with
        | Json.arr a => wfStages a
        | _ => false
      else
        match v with
        | Json.obj [] => false
        | Json.obj ((opKey, opValue) :: _) => wfOp opKey opValue
        | _ => true) && wfEntries rest) := by
  cases v with
  | obj kvs =>
    cases kvs with
    | nil => simp [wfEntries]
    | cons e tail =>
      obtain ⟨opKey, opValue⟩ := e
      simp [wfEntries]
  | _ => simp [wfEntries]

lemma wfOp_fieldOp (key opKey : String) (opValue : Json) (h : wfOp opKey opValue = true) :
    ∃ piece, fieldOp key opKey opValue = Except.ok piece := by
  have h1 : opKey ∈ recognizedOps ∨ (opKey = "$regex" ∧ opValue.isStr = true) := by
    simpa [wfOp] using h
  rcases h1 with hmem | ⟨rfl, hstr⟩
  · have h2 : opKey = "$gte" ∨ opKey = "$gt" ∨ opKey = "$lte" ∨ opKey = "$lt" ∨
        opKey = "$eq" ∨ opKey = "$ne" ∨ opKey = "$in" ∨ opKey = "$nin" ∨
        opKey = "$options" := by simpa [recognizedOps] using hmem
    rcases h2 with rfl | rfl | rfl | rfl | rfl | rfl | rfl | rfl | rfl <;> simp [fieldOp]
  · cases opValue <;> simp_all [fieldOp, Json.isStr]

lemma wfEntries_pe : ∀ (kvs : List (String × Json)), wfEntries kvs = true →
    ∀ sql, ∃ s, processEntries kvs sql = Except.ok s := by
  intro kvs
  induction kvs with
  | nil => exact fun _ sql => ⟨sql, by simp [processEntries]⟩
  | cons e rest ih =>
    obtain ⟨k, v⟩ := e
    intro h sql
    rw [wfEntries_cons, Bool.and_eq_true] at h
    obtain ⟨hhead, htail⟩ := h
    rw [processEntries_cons]
    by_cases hk : k ∈ groupingKeys
    · cases v <;> simp_all
    · cases v with
      | obj kvs' =>
        cases kvs' with
        | nil => simp [hk] at hhead
        | cons op tail =>
          obtain ⟨opKey, opValue⟩ := op
          simp [hk] at hhead ⊢
          obtain ⟨piece, hfo⟩ := wfOp_fieldOp k opKey opValue hhead
          rw [hfo]
          exact ih htail (sql ++ piece)
      | null => simp [hk]; exact ih htail _
      | bool b => simp [hk]; exact ih htail _
      | num n => simp [hk]; exact ih htail _
      | str str => simp [hk]; exact ih htail _
      | arr xs => simp [hk]; exact ih htail _

mutual
lemma wfStage_ok : ∀ (j : Json), wfStage j = true → ∃ s, match_stage j = Except.ok s
  | .obj kvs, h => by
    have hE : wfEntries kvs = true := by simpa [wfStage] using h
    obtain ⟨sql, hpe⟩ := wfEntries_pe kvs hE ""
    rcases wfEntries_gr kvs hE with hgr | ⟨ts, hgr⟩
    · exact ⟨sql, by rw [match_stage_obj, hpe, hgr]⟩
    · cases ts with
      | nil => exact ⟨sql, by rw [match_stage_obj, hpe, hgr]⟩
      | cons t ts => exact ⟨_, by rw [match_stage_obj, hpe, hgr]⟩
  | .null, h => by simp [wfStage] at h
  | .bool b, h => by simp [wfStage] at h
  | .num n, h => by simp [wfStage] at h
  | .str s, h => by simp [wfStage] at h
  | .arr xs, h => by simp [wfStage] at h

lemma wfEntries_gr : ∀ (kvs : List (String × Json)), wfEntries kvs = true →
    groupResult kvs = none ∨ ∃ ts, groupResult kvs = some (Except.ok ts)
  | [], _ => Or.inl (by simp [groupResult])
  | (k, v) :: rest, h => by
    rw [wfEntries_cons, Bool.and_eq_true] at h
    obtain ⟨hhead, htail⟩ := h
    rcases wfEntries_gr rest htail with hgr | ⟨ts, hgr⟩
    · rw [groupResult_cons, hgr]
      by_cases hk : k ∈ groupingKeys
      · cases v with
        | arr a =>
          obtain ⟨ts, hts⟩ := wfStages_ok a (by simpa [hk] using hhead)
          exact Or.inr ⟨ts, by simp [hk, hts]⟩
        | null => simp [hk] at hhead
        | bool b => simp [hk] at hhead
        | num n => simp [hk] at hhead
        | str s => simp [hk] at hhead
        | obj kvs' => simp [hk] at hhead
      · exact Or.inl (by simp [hk])
    · rw [groupResult_cons, hgr]
      exact Or.inr ⟨ts, rfl⟩

lemma wfStages_ok : ∀ (subs : List Json), wfStages subs = true →
    ∃ ts, matchSubs subs = Except.ok ts
  | [], _ => ⟨[], by simp [matchSubs]⟩
  | v :: rest, h => by
    rw [wfStages, Bool.and_eq_true] at h
    obtain ⟨h1, h2⟩ := h
    obtain ⟨s, hs⟩ := wfStage_ok v h1
    obtain ⟨ts, hts⟩ := wfStages_ok rest h2
    exact ⟨s :: ts, by rw [matchSubs_cons, hs, hts]⟩
end

/-! ### The claims -/

/-- Claim C1: for every stage of the form `\x7bfield: \x7bop: value\x7d\x7d` where `op`
is one of the six comparison tags `$gte`, `$gt`, `$lte`, `$lt`, `$eq`, `$ne`,
`match_stage` returns `Ok` of the string `"field SYMBOL rendered-value"` with
SYMBOL being `>=`, `>`, `<=`, `<`, `=`, `!=` respectively and the value rendered
in its canonical textual (JSON) form. -/
theorem comparison_stage_renders (f : String) (v : Json) (hf : f ∉ groupingKeys) :
    match_stage (.obj [(f, .obj [("$gte", v)])]) = .ok (f ++ " >= " ++ render v) ∧
    match_stage (.obj [(f, .obj [("$gt", v)])]) = .ok (f ++ " > " ++ render v) ∧
    match_stage (.obj [(f, .obj [("$lte", v)])]) = .ok (f ++ " <= " ++ render v) ∧
    match_stage (.obj [(f, .obj [("$lt", v)])]) = .ok (f ++ " < " ++ render v) ∧
    match_stage (.obj [(f, .obj [("$eq", v)])]) = .ok (f ++ " = " ++ render v) ∧
    match_stage (.obj [(f, .obj [("$ne", v)])]) = .ok (f ++ " != " ++ render v) := by
  refine ⟨?_, ?_, ?_, ?_, ?_, ?_⟩ <;>
    rw [match_stage_single_field _ _ _ _ hf] <;> simp [fieldOp]

theorem comparison_stage_renders_witness :
    match_stage (.obj [("age", .obj [("$gte", .num 21)])]) =
      .ok ("age" ++ " >= " ++ render (.num 21)) :=
  (comparison_stage_renders "age" (.num 21) (by decide)).1

/-- Claim C2: for every stage `\x7b"$and": [s1, ..., sN]\x7d` (N ≥ 1) whose sub-stages
each translate successfully to `t1, ..., tN`, `match_stage` returns `Ok` of
`"(" ++ "(t1)" ++ " AND " ++ ... ++ "(tN)" ++ ")"`: each sub-result is
parenthesized and the joined group is wrapped in one more pair of parentheses;
the analogous property holds for `$or` with `" OR "`. -/
theorem and_or_group_renders (subs : List Json) (t : String) (ts : List String)
    (h : subs.map match_stage = (t :: ts).map Except.ok) :
    match_stage (.obj [("$and", .arr subs)]) =
      .ok ("(" ++ String.intercalate " AND " ((t :: ts).map (fun s => "(" ++ s ++ ")")) ++ ")") ∧
    match_stage (.obj [("$or", .arr subs)]) =
      .ok ("(" ++ String.intercalate " OR " ((t :: ts).map (fun s => "(" ++ s ++ ")")) ++ ")") := by
  have hm := matchSubs_of_map subs (t :: ts) h
  constructor
  · have h1 := match_stage_single_group "$and" subs t ts (by decide) hm
    simpa using h1
  · have h1 := match_stage_single_group "$or" subs t ts (by decide) hm
    simpa using h1

theorem and_or_group_renders_witness :
    match_stage (.obj [("$and", .arr [.obj [("status", .str "active")],
        .obj [("age", .obj [("$gte", .num 21)])]])]) =
      .ok "((status = \"active\") AND (age >= 21))" := by
  have h := (and_or_group_renders
    [.obj [("status", .str "active")], .obj [("age", .obj [("$gte", .num 21)])]]
    "status = \"active\"" ["age >= 21"] (by rfl)).1
  exact h

/-- Claim C3: for a stage whose grouping key is the negated-disjunction key `$nor`,
`match_stage` combines the parenthesized sub-results with `" OR "` exactly as for
`$or` — no NOT is emitted and no negation of the combined result occurs; and for a
stage with a single grouping key, `" AND "` is used exactly when that key
is `$and`. -/
theorem nor_group_is_or (subs : List Json) (t : String) (ts : List String)
    (h : subs.map match_stage = (t :: ts).map Except.ok) :
    match_stage (.obj [("$nor", .arr subs)]) =
      .ok ("(" ++ String.intercalate " OR " ((t :: ts).map (fun s => "(" ++ s ++ ")")) ++ ")") ∧
    match_stage (.obj [("$nor", .arr subs)]) = match_stage (.obj [("$or", .arr subs)]) ∧
    (∀ g ∈ groupingKeys, match_stage (.obj [(g, .arr subs)]) =
      .ok ("(" ++ String.intercalate (if g = "$and" then " AND " else " OR ")
        ((t :: ts).map (fun s => "(" ++ s ++ ")")) ++ ")")) := by
  have hm := matchSubs_of_map subs (t :: ts) h
  have hnor := match_stage_single_group "$nor" subs t ts (by decide) hm
  have hor := match_stage_single_group "$or" subs t ts (by decide) hm
  refine ⟨by simpa using hnor, ?_, fun g hg => match_stage_single_group g subs t ts hg hm⟩
  rw [hnor, hor]
  simp

theorem nor_group_is_or_witness :
    match_stage (.obj [("$nor", .arr [.obj [("status", .str "active")],
        .obj [("age", .obj [("$gte", .num 21)])]])]) =
      .ok "((status = \"active\") OR (age >= 21))" := by
  have h := (nor_group_is_or
    [.obj [("status", .str "active")], .obj [("age", .obj [("$gte", .num 21)])]]
    "status = \"active\"" ["age >= 21"] (by rfl)).1
  exact h

/-- Claim C4, counterexample: in the stage `\x7b$and: [\x7bx:1\x7d], $or: [\x7by:2\x7d, \x7bz:3\x7d]\x7d`
the last grouping key is `$or`, so by the claim the connective should be `" OR "`;
the code instead produces `" AND "` because the connective is chosen by the
presence of the key `"$and"` anywhere in the stage. -/
theorem last_group_connective_cex :
    match_stage (.obj [("$and", .arr [.obj [("x", .num 1)]]),
        ("$or", .arr [.obj [("y", .num 2)], .obj [("z", .num 3)]])]) =
      .ok "((y = 2) AND (z = 3))" ∧
    "((y = 2) AND (z = 3))" ≠ "((y = 2) OR (z = 3))" := by
  exact ⟨rfl, by decide⟩

/-- Claim C4, amended: with several grouping keys in one stage, only the last
grouping key's sequence supplies the sub-stages that are translated (the earlier
sequences contribute nothing), but the connective is `" AND "` exactly when some
grouping key of the stage is `"$and"` — it is not determined by the identity of
the last grouping key. -/
theorem last_group_wins (g₁ g₂ : String) (a₁ subs : List Json) (t : String) (ts : List String)
    (h₁ : g₁ ∈ groupingKeys) (h₂ : g₂ ∈ groupingKeys)
    (h : subs.map match_stage = (t :: ts).map Except.ok) :
    match_stage (.obj [(g₁, .arr a₁), (g₂, .arr subs)]) =
      .ok ("(" ++ String.intercalate (if g₁ = "$and" ∨ g₂ = "$and" then " AND " else " OR ")
        ((t :: ts).map (fun s => "(" ++ s ++ ")")) ++ ")") := by
  have hm := matchSubs_of_map subs (t :: ts) h
  have hgr := groupResult_last [(g₁, .arr a₁)] g₂ subs h₂
  simp only [List.cons_append, List.nil_append] at hgr
  have hpe : processEntries [(g₁, .arr a₁), (g₂, .arr subs)] "" = .ok "" := by
    rw [processEntries_cons, processEntries_cons]
    simp [h₁, h₂, processEntries]
  have hconn : connective [(g₁, .arr a₁), (g₂, .arr subs)] =
      (if g₁ = "$and" ∨ g₂ = "$and" then " AND " else " OR ") := by
    by_cases e₁ : g₁ = "$and" <;> by_cases e₂ : g₂ = "$and" <;>
      simp [connective, e₁, e₂, Ne.symm]
  rw [match_stage_obj, hpe, hgr, hm, hconn]
  rfl

theorem last_group_wins_witness :
    match_stage (.obj [("$and", .arr [.obj [("x", .num 1)]]),
        ("$or", .arr [.obj [("y", .num 2)], .obj [("z", .num 3)]])]) =
      .ok "((y = 2) AND (z = 3))" := by
  have h := last_group_wins "$and" "$or" [.obj [("x", .num 1)]]
    [.obj [("y", .num 2)], .obj [("z", .num 3)]] "y = 2" ["z = 3"]
    (by decide) (by decide) (by rfl)
  exact h

/-- Claim C5: for every stage `\x7bfield: \x7b"$in": operand\x7d\x7d`, `match_stage` returns
`Ok` of `"field IN (v1, v2, ...)"` where a sequence operand contributes its
elements individually rendered and joined by `", "`, and a non-sequence operand
is treated as a single-element list; the same operand handling applies to `$nin`
with `"field NOT IN (...)"`. -/
theorem membership_renders (f : String) (hf : f ∉ groupingKeys) :
    (∀ (vs : List Json) (rest : List (String × Json)),
      match_stage (.obj [(f, .obj (("$in", .arr vs) :: rest))]) =
        .ok (f ++ " IN (" ++ String.intercalate ", " (vs.map render) ++ ")")) ∧
    (∀ (v : Json) (rest : List (String × Json)), v.isArr = false →
      match_stage (.obj [(f, .obj (("$in", v) :: rest))]) =
        .ok (f ++ " IN (" ++ render v ++ ")")) ∧
    (∀ (vs : List Json) (rest : List (String × Json)),
      match_stage (.obj [(f, .obj (("$nin", .arr vs) :: rest))]) =
        .ok (f ++ " NOT IN (" ++ String.intercalate ", " (vs.map render) ++ ")")) ∧
    (∀ (v : Json) (rest : List (String × Json)), v.isArr = false →
      match_stage (.obj [(f, .obj (("$nin", v) :: rest))]) =
        .ok (f ++ " NOT IN (" ++ render v ++ ")")) := by
  refine ⟨fun vs rest => ?_, fun v rest hv => ?_, fun vs rest => ?_, fun v rest hv => ?_⟩ <;>
    rw [match_stage_single_field _ _ _ _ hf]
  · simp [fieldOp, membVals]
  · cases v <;> simp_all [fieldOp, membVals, Json.isArr, String.intercalate, String.intercalate.go]
  · simp [fieldOp, membVals]
  · cases v <;> simp_all [fieldOp, membVals, Json.isArr, String.intercalate, String.intercalate.go]

theorem membership_renders_witness :
    match_stage (.obj [("status", .obj [("$in", .arr [.str "active", .str "pending"])])]) =
      .ok ("status" ++ " IN (" ++
        String.intercalate ", " ([Json.str "active", Json.str "pending"].map render) ++ ")") :=
  (membership_renders "status" (by decide)).1 [.str "active", .str "pending"] []

/-- Claim C6: for every stage `\x7bfield: \x7b"$regex": p, "$options": o\x7d\x7d` where `p` is
text, `match_stage` returns `Ok` of `"field ~ SQ p SQ"` (SQ a single quote), the
options entry contributing nothing to the output; if the pattern-match operand is
not text, `match_stage` returns the `InvalidRegexValue` error carrying the
offending value. -/
theorem regex_renders (f : String) (hf : f ∉ groupingKeys) :
    (∀ (p : String) (rest : List (String × Json)),
      match_stage (.obj [(f, .obj (("$regex", .str p) :: rest))]) =
        .ok (f ++ " ~ " ++ squote ++ p ++ squote)) ∧
    (∀ (v : Json) (rest : List (String × Json)), v.isStr = false →
      match_stage (.obj [(f, .obj (("$regex", v) :: rest))]) =
        .error (.InvalidRegexValue v)) := by
  refine ⟨fun p rest => ?_, fun v rest hv => ?_⟩ <;>
    rw [match_stage_single_field _ _ _ _ hf]
  · simp [fieldOp]
  · cases v <;> simp_all [fieldOp, Json.isStr]

theorem regex_renders_witness :
    match_stage (.obj [("name", .obj [("$regex", .str "^joh?n$"), ("$options", .str "i")])]) =
      .ok ("name" ++ " ~ " ++ squote ++ "^joh?n$" ++ squote) :=
  (regex_renders "name" (by decide)).1 "^joh?n$" [("$options", .str "i")]

/-- Claim C8: error propagation is fail-fast — for a stage whose grouping key
supplies the translated sub-stages, if translating a sub-stage fails (all
sub-stages before it succeeding), `match_stage` returns that sub-stage's error
unchanged, with no partial output string; in particular a non-mapping sub-stage
yields `InvalidStage` carrying the offending value, identical to the top-level
case. -/
theorem error_propagation (fields : List (String × Json)) (g : String)
    (pre : List Json) (bad : Json) (post : List Json) (sql : String)
    (hg : g ∈ groupingKeys)
    (hpe : processEntries (fields ++ [(g, .arr (pre ++ bad :: post))]) "" = .ok sql)
    (hpre : ∀ v ∈ pre, ∃ s, match_stage v = Except.ok s) :
    (∀ e, match_stage bad = .error e →
      match_stage (.obj (fields ++ [(g, .arr (pre ++ bad :: post))])) = .error e) ∧
    (bad.isObj = false →
      match_stage (.obj (fields ++ [(g, .arr (pre ++ bad :: post))])) =
        .error (.InvalidStage bad)) := by
  have hgr := groupResult_last fields g (pre ++ bad :: post) hg
  constructor
  · intro e he
    have hms := matchSubs_append_error pre bad post e hpre he
    rw [match_stage_obj, hpe, hgr, hms]
  · intro hv
    have he := match_stage_not_obj bad hv
    have hms := matchSubs_append_error pre bad post _ hpre he
    rw [match_stage_obj, hpe, hgr, hms]

theorem error_propagation_witness :
    match_stage (.obj [("$and", .arr [.obj [], .num 3])]) =
      .error (.InvalidStage (.num 3)) := by
  have hpre : ∀ v ∈ [Json.obj []], ∃ s, match_stage v = Except.ok s := by
    intro v hv
    simp only [List.mem_singleton] at hv
    subst hv
    exact ⟨"", rfl⟩
  have h := (error_propagation [] "$and" [Json.obj []] (.num 3) [] ""
    (by decide) (by rfl) hpre).2 (by rfl)
  simpa using h

/-- Claim C9: for the six comparison operators, for implicit equality on a
non-mapping field value, and for the elements of membership lists, the operand
may be any JSON value whatsoever: it is rendered via its JSON serialization and
never causes an error — the pattern-match operator is the only place an
operand's type is validated. -/
theorem operands_unvalidated (f : String) (hf : f ∉ groupingKeys) :
    (∀ p ∈ [("$gte", " >= "), ("$gt", " > "), ("$lte", " <= "), ("$lt", " < "),
        ("$eq", " = "), ("$ne", " != ")], ∀ v : Json,
      match_stage (.obj [(f, .obj [(p.1, v)])]) = .ok (f ++ p.2 ++ render v)) ∧
    (∀ v : Json, v.isObj = false →
      match_stage (.obj [(f, v)]) = .ok (f ++ " = " ++ render v)) ∧
    (∀ vs : List Json,
      match_stage (.obj [(f, .obj [("$in", .arr vs)])]) =
        .ok (f ++ " IN (" ++ String.intercalate ", " (vs.map render) ++ ")")) ∧
    (∀ v : Json, v.isStr = false →
      match_stage (.obj [(f, .obj [("$regex", v)])]) =
        .error (.InvalidRegexValue v)) := by
  refine ⟨?_, fun v hv => match_stage_implicit_eq f v hf hv, fun vs => ?_, fun v hv => ?_⟩
  · intro p hp v
    fin_cases hp <;> rw [match_stage_single_field _ _ _ _ hf] <;> simp [fieldOp]
  · rw [match_stage_single_field _ _ _ _ hf]
    simp [fieldOp, membVals]
  · rw [match_stage_single_field _ _ _ _ hf]
    cases v <;> simp_all [fieldOp, Json.isStr]

theorem operands_unvalidated_witness :
    match_stage (.obj [("tags", .arr [.num 1, .null])]) =
      .ok ("tags" ++ " = " ++ render (.arr [.num 1, .null])) :=
  (operands_unvalidated "tags" (by decide)).2.1 (.arr [.num 1, .null]) (by rfl)

/-! Helper lemmas for claim C10. -/
lemma processEntries_options (kvs : List (String × Json)) (sql : String)
    (h : ∀ p ∈ kvs, p.1 ∉ groupingKeys ∧ ∃ v rest, p.2 = .obj (("$options", v) :: rest)) :
    processEntries kvs sql = .ok sql := by
  induction kvs generalizing sql with
  | nil => simp [processEntries]
  | cons e rest ih =>
    obtain ⟨h1, v, r, h2⟩ := h e (by simp)
    rw [processEntries_cons e.1 e.2, h2]
    have ih1 := ih sql (fun p hp => h p (by simp [hp]))
    simp [h1, fieldOp, ih1]

lemma groupResult_none (kvs : List (String × Json))
    (h : ∀ p ∈ kvs, p.1 ∉ groupingKeys) : groupResult kvs = none := by
  induction kvs with
  | nil => simp [groupResult]
  | cons e rest ih =>
    rw [groupResult_cons e.1 e.2, ih (fun p hp => h p (by simp [hp]))]
    simp [h e (by simp)]

/-- Claim C10: a stage field whose operator mapping has `"$options"` as its first
(and only consulted) entry succeeds and contributes nothing to the output, even
though no pattern-match operator is present; a stage consisting only of such
fields returns `Ok` of the empty string. -/
theorem options_only_empty (kvs : List (String × Json))
    (h : ∀ p ∈ kvs, p.1 ∉ groupingKeys ∧ ∃ v rest, p.2 = .obj (("$options", v) :: rest)) :
    match_stage (.obj kvs) = .ok "" := by
  rw [match_stage_obj, processEntries_options kvs "" h,
    groupResult_none kvs (fun p hp => (h p hp).1)]

theorem options_only_empty_witness :
    match_stage (.obj [("a", .obj [("$options", .str "i")]),
        ("b", .obj [("$options", .num 1)])]) = .ok "" := by
  refine options_only_empty _ ?_
  intro p hp
  simp only [List.mem_cons, List.not_mem_nil, or_false] at hp
  rcases hp with rfl | rfl
  · exact ⟨by decide, .str "i", [], rfl⟩
  · exact ⟨by decide, .num 1, [], rfl⟩

/-- Claim C7, counterexample: the empty stage `\x7b\x7d` is a mapping with no
descendants, hence well-formed, yet `match_stage` returns `Ok` of the empty
string — refuting the claim that the result is always non-empty. -/
theorem wellformed_nonempty_cex :
    wfStage (Json.obj []) = true ∧ match_stage (Json.obj []) = Except.ok "" :=
  ⟨rfl, rfl⟩

/-- Claim C7, amended: for every well-formed stage (itself a mapping, every
grouping value a sequence of well-formed stages, every operator mapping
non-empty with a recognized first tag whose `$regex` operand is text),
`match_stage` returns `Ok` of a string; the string may be empty (for instance
for the empty stage). -/
theorem wellformed_ok (j : Json) (h : wfStage j = true) :
    ∃ s, match_stage j = Except.ok s :=
  wfStage_ok j h

theorem wellformed_ok_witness :
    ∃ s, match_stage (Json.obj [("age", .obj [("$gte", .num 21)])]) = Except.ok s :=
  wellformed_ok (Json.obj [("age", .obj [("$gte", .num 21)])]) (by rfl)
